import Mathlib

/-!
Shallow embedding of the encoder module (`board/encoder.go`): a quadrature
hall-effect rotary decoder (`HallEncoder`) and a single-pulse decoder
(`SingleEncoder`), both driving a signed 64-bit atomic position counter.

The Go `int64` counter is modelled as `Int` normalized into
`[-2^63, 2^63)` by `wrap64`; `atomic.AddInt64` wraps silently, which
`wrap64` makes explicit.
-/

namespace Encoder

/-- Signed 64-bit wraparound: normalizes an integer into `[-2^63, 2^63)`,
matching Go `int64` two's-complement arithmetic. -/
def wrap64 (n : Int) : Int := (n + 2 ^ 63) % 2 ^ 64 - 2 ^ 63

/-- A `context.Context` carries no data the encoder methods use; it is an
opaque token here. -/
structure Context where
  id : Nat
deriving DecidableEq

/-- A `DigitalInterrupt` is an external collaborator (the GPIO edge source);
the encoder only holds a reference to it, so it is an opaque token. -/
structure DigitalInterrupt where
  id : Nat
deriving DecidableEq

/-- The `HallEncoder` struct: two interrupt lines and the position register
(`encoder.go` lines 28-31). -/
structure HallEncoder where
  a : DigitalInterrupt
  b : DigitalInterrupt
  position : Int
deriving DecidableEq

/-- `NewHallEncoder` (`encoder.go` lines 34-36): position starts at 0. -/
def NewHallEncoder (a b : DigitalInterrupt) : HallEncoder :=
  { a := a, b := b, position := 0 }

/-- `HallEncoder.Position` (lines 137-139): atomic load, nil error. -/
def HallEncoder.Position (e : HallEncoder) (_ctx : Context) : Int × Option String :=
  (e.position, none)

/-- `HallEncoder.Zero` (lines 142-145): atomic store of the offset, nil error. -/
def HallEncoder.Zero (e : HallEncoder) (_ctx : Context) (offset : Int) :
    HallEncoder × Option String :=
  ({ e with position := offset }, none)

/-- The state of the `HallEncoder.Start` consumer goroutine: loop-local
cached levels and debounce memory (lines 70-74) together with the shared
position register. -/
structure HallLoopState where
  aLevel : Bool
  bLevel : Bool
  lastWasA : Bool
  lastLevel : Bool
  position : Int
deriving DecidableEq

/-- Loop state immediately after `Start` spawns the goroutine (lines 70-74):
all four cached booleans initialized to `true` without reading the lines. -/
def HallEncoder.startState (e : HallEncoder) : HallLoopState :=
  { aLevel := true, bLevel := true, lastWasA := true, lastLevel := true,
    position := e.position }

/-- `HallEncoder.inc` (lines 152-154): `atomic.AddInt64(&e.position, 1)`. -/
def HallLoopState.inc (s : HallLoopState) : HallLoopState :=
  { s with position := wrap64 (s.position + 1) }

/-- `HallEncoder.dec` (lines 156-158): `atomic.AddInt64(&e.position, -1)`. -/
def HallLoopState.dec (s : HallLoopState) : HallLoopState :=
  { s with position := wrap64 (s.position - 1) }

/-- One edge event delivered on `chanA` (`isA = true`) or `chanB`
(`isA = false`), carrying the new boolean level. -/
structure Event where
  isA : Bool
  level : Bool
deriving DecidableEq

/-- One iteration body of the `HallEncoder.Start` consumer loop after an
event has been received (lines 84-130): record the level on the originating
channel, apply the debounce filter, then the four-state transition table. -/
def hallStep (s : HallLoopState) (ev : Event) : HallLoopState :=
  let level := ev.level
  let isA := ev.isA
  let s := if isA then { s with aLevel := level } else { s with bLevel := level }
  if isA == s.lastWasA && level == s.lastLevel then
    s
  else
    let s := { s with lastWasA := isA, lastLevel := level }
    if !s.aLevel && !s.bLevel then -- state 1
      if s.lastWasA then s.inc else s.dec
    else if !s.aLevel && s.bLevel then -- state 2
      if s.lastWasA then s.dec else s.inc
    else if s.aLevel && s.bLevel then -- state 3
      if s.lastWasA then s.inc else s.dec
    else if s.aLevel && !s.bLevel then -- state 4
      if s.lastWasA then s.dec else s.inc
    else
      s

/-- The debounce filter's acceptance test (line 98): an event is accepted
unless the same channel reports the same level as the previous accepted
event. -/
def accepted (s : HallLoopState) (ev : Event) : Bool :=
  !(ev.isA == s.lastWasA && ev.level == s.lastLevel)

/-- Run the consumer loop body over a list of delivered events. -/
def hallRun (s : HallLoopState) (evs : List Event) : HallLoopState :=
  evs.foldl hallStep s

/-- Every event in the list is discarded by the debounce filter as the loop
processes the list in order. -/
def allDiscarded (s : HallLoopState) : List Event → Bool
  | [] => true
  | ev :: rest => !accepted s ev && allDiscarded (hallStep s ev) rest

/-- Reachability invariant of the consumer loop state: the debounce memory
`lastLevel` agrees with the cached level of the channel named by
`lastWasA`. It holds at `startState` and is preserved by `hallStep`. -/
def LevelInv (s : HallLoopState) : Prop :=
  (s.lastWasA = true → s.lastLevel = s.aLevel) ∧
  (s.lastWasA = false → s.lastLevel = s.bLevel)

instance (s : HallLoopState) : Decidable (LevelInv s) := by
  unfold LevelInv; infer_instance

/-- The four-edge event sequence of one full forward rotation starting from
the given cached levels: from `(false, false)` it is A up, B up, A down,
B down, and cyclic rotations thereof from the other starting levels. -/
def forwardSeq : Bool → Bool → List Event
  | false, false => [⟨true, true⟩, ⟨false, true⟩, ⟨true, false⟩, ⟨false, false⟩]
  | true, false => [⟨false, true⟩, ⟨true, false⟩, ⟨false, false⟩, ⟨true, true⟩]
  | true, true => [⟨true, false⟩, ⟨false, false⟩, ⟨true, true⟩, ⟨false, true⟩]
  | false, true => [⟨false, false⟩, ⟨true, true⟩, ⟨false, true⟩, ⟨true, false⟩]

/-- The four-edge event sequence of one full rotation in the reverse
physical direction, starting from the given cached levels. -/
def backwardSeq : Bool → Bool → List Event
  | false, false => [⟨false, true⟩, ⟨true, true⟩, ⟨false, false⟩, ⟨true, false⟩]
  | false, true => [⟨true, true⟩, ⟨false, false⟩, ⟨true, false⟩, ⟨false, true⟩]
  | true, true => [⟨false, false⟩, ⟨true, false⟩, ⟨false, true⟩, ⟨true, true⟩]
  | true, false => [⟨true, false⟩, ⟨false, true⟩, ⟨true, true⟩, ⟨false, false⟩]

/-- The motor direction enum (`pb.DirectionRelative`): unspecified, forward
or backward. -/
inductive DirectionRelative where
  | unspecified
  | forward
  | backward
deriving DecidableEq

/-- The `SingleEncoder` struct (lines 168-172): one interrupt line and the
position register (the motor back-reference is consulted only for its
direction, which is an input of `singleStep` here). -/
structure SingleEncoder where
  i : DigitalInterrupt
  position : Int
deriving DecidableEq

/-- `NewSingleEncoder` (lines 163-165): position starts at 0. -/
def NewSingleEncoder (i : DigitalInterrupt) : SingleEncoder :=
  { i := i, position := 0 }

/-- `SingleEncoder.Position` (lines 210-212): atomic load, nil error. -/
def SingleEncoder.Position (e : SingleEncoder) (_ctx : Context) : Int × Option String :=
  (e.position, none)

/-- `SingleEncoder.Zero` (lines 215-218): atomic store of the offset, nil
error. -/
def SingleEncoder.Zero (e : SingleEncoder) (_ctx : Context) (offset : Int) :
    SingleEncoder × Option String :=
  ({ e with position := offset }, none)

/-- The state of the `SingleEncoder.Start` consumer goroutine: the shared
position register plus the count of warnings logged so far. -/
structure SingleLoopState where
  position : Int
  warnings : Nat
deriving DecidableEq

/-- One iteration body of the `SingleEncoder.Start` consumer loop after a
pulse has been received (lines 195-204): read the motor direction, then
increment on FORWARD, decrement on BACKWARD, otherwise leave the counter
alone and log a warning only when `rpmDebug` is set. -/
def singleStep (rpmDebug : Bool) (s : SingleLoopState) (dir : DirectionRelative) :
    SingleLoopState :=
  if dir = DirectionRelative.forward then
    { s with position := wrap64 (s.position + 1) }
  else if dir = DirectionRelative.backward then
    { s with position := wrap64 (s.position - 1) }
  else if rpmDebug then
    { s with warnings := s.warnings + 1 }
  else
    s

/-- Run the single-pulse consumer loop body over the directions read on a
list of successive pulses. -/
def singleRun (rpmDebug : Bool) (s : SingleLoopState) (dirs : List DirectionRelative) :
    SingleLoopState :=
  dirs.foldl (singleStep rpmDebug) s

/-- Result of one iteration of a consumer loop: the goroutine returned, or
it continues with an updated state. -/
inductive IterResult (σ : Type) where
  | exited
  | continued (s : σ)
deriving DecidableEq

/-- One full iteration of a consumer loop (lines 76-96 and 182-193):
first a non-blocking check of `cancelCtx.Done()` (with `default`, so it
deterministically returns when the signal has fired), then a blocking
`select` racing `Done` against the event channels. When the signal has
fired and an event is simultaneously ready, Go chooses among the ready
cases pseudo-randomly; `selectPicksDone` records that choice. -/
def loopIter {σ : Type} (step : σ → σ)
    (doneAtTop doneAtSelect selectPicksDone : Bool) (s : σ) : IterResult σ :=
  if doneAtTop then IterResult.exited
  else if doneAtSelect && selectPicksDone then IterResult.exited
  else IterResult.continued (step s)

end Encoder

namespace Encoder

/-! ## Helper lemmas -/

/-- Adding after re-normalizing is the same as adding first: `wrap64` is a
homomorphism for shifted addition. -/
theorem wrap64_wrap64_add (x y : Int) : wrap64 (wrap64 x + y) = wrap64 (x + y) := by
  unfold wrap64; omega

/-- Subtracting after re-normalizing is the same as subtracting first. -/
theorem wrap64_wrap64_sub (x y : Int) : wrap64 (wrap64 x - y) = wrap64 (x - y) := by
  unfold wrap64; omega

/-- Four wrapped decrements amount to one wrapped subtraction of 4. -/
theorem wrap64_sub4 (p : Int) :
    wrap64 (wrap64 (wrap64 (wrap64 (p - 1) - 1) - 1) - 1) = wrap64 (p - 4) := by
  unfold wrap64; omega

/-- Four wrapped increments amount to one wrapped addition of 4. -/
theorem wrap64_add4 (p : Int) :
    wrap64 (wrap64 (wrap64 (wrap64 (p + 1) + 1) + 1) + 1) = wrap64 (p + 4) := by
  unfold wrap64; omega

/-- A discarded event leaves the position register untouched: the debounce
branch (line 101's `continue`) reaches neither `inc` nor `dec`. -/
theorem hallStep_discarded_position (s : HallLoopState) (ev : Event)
    (h : accepted s ev = false) : (hallStep s ev).position = s.position := by
  obtain ⟨a, b, lw, ll, p⟩ := s
  obtain ⟨iA, lv⟩ := ev
  simp [accepted] at h
  cases iA <;> cases lv <;> cases lw <;> cases ll <;>
    simp_all [hallStep, HallLoopState.inc, HallLoopState.dec]

/-- A run in which every event is discarded leaves the position register
untouched. -/
theorem hallRun_allDiscarded_position (evs : List Event) (s : HallLoopState)
    (h : allDiscarded s evs = true) : (hallRun s evs).position = s.position := by
  induction evs generalizing s with
  | nil => rfl
  | cons ev rest ih =>
    simp only [allDiscarded, Bool.and_eq_true, Bool.not_eq_true'] at h
    have h1 := hallStep_discarded_position s ev h.1
    have h2 := ih (hallStep s ev) h.2
    simpa [hallRun] using h2.trans h1

/-- Pulses observed while the motor direction is neither FORWARD nor
BACKWARD never move the single-pulse counter. -/
theorem singleRun_off_position (dirs : List DirectionRelative) (rpmDebug : Bool)
    (t : SingleLoopState)
    (h : ∀ d ∈ dirs, d ≠ DirectionRelative.forward ∧ d ≠ DirectionRelative.backward) :
    (singleRun rpmDebug t dirs).position = t.position := by
  induction dirs generalizing t with
  | nil => rfl
  | cons d rest ih =>
    have hd := h d (by simp)
    have hrest : ∀ d2 ∈ rest,
        d2 ≠ DirectionRelative.forward ∧ d2 ≠ DirectionRelative.backward :=
      fun d2 hm => h d2 (by simp [hm])
    have step : (singleStep rpmDebug t d).position = t.position := by
      cases d with
      | forward => exact absurd rfl hd.1
      | backward => exact absurd rfl hd.2
      | unspecified => cases rpmDebug <;> rfl
    have h2 := ih (singleStep rpmDebug t d) hrest
    simpa [singleRun] using h2.trans step

end Encoder

namespace Encoder

/-! ## Claim theorems -/

/-- Claim C1: for every edge event accepted by the `HallEncoder` consumer
loop, the counter update follows the transition table: when the cached
levels after recording the event are `(false, false)` or `(true, true)`,
the counter is incremented for an edge on channel A and decremented for an
edge on channel B; when they are `(false, true)` or `(true, false)`, the
counter is decremented for channel A and incremented for channel B. -/
theorem hall_transition_table (s : HallLoopState) (ev : Event)
    (hacc : accepted s ev = true) :
    ((((hallStep s ev).aLevel = false ∧ (hallStep s ev).bLevel = false) ∨
      ((hallStep s ev).aLevel = true ∧ (hallStep s ev).bLevel = true)) →
      (ev.isA = true → (hallStep s ev).position = wrap64 (s.position + 1)) ∧
      (ev.isA = false → (hallStep s ev).position = wrap64 (s.position - 1))) ∧
    ((((hallStep s ev).aLevel = false ∧ (hallStep s ev).bLevel = true) ∨
      ((hallStep s ev).aLevel = true ∧ (hallStep s ev).bLevel = false)) →
      (ev.isA = true → (hallStep s ev).position = wrap64 (s.position - 1)) ∧
      (ev.isA = false → (hallStep s ev).position = wrap64 (s.position + 1))) := by
  obtain ⟨a, b, lw, ll, p⟩ := s
  obtain ⟨iA, lv⟩ := ev
  simp [accepted] at hacc
  cases iA <;> cases lv <;> cases a <;> cases b <;> cases lw <;> cases ll <;>
    simp_all [hallStep, HallLoopState.inc, HallLoopState.dec]

/-- Witness for C1: from the post-`Start` state, a B-goes-false edge is
accepted, lands in cached levels `(true, false)`, and increments. -/
theorem hall_transition_table_witness :
    accepted (HallEncoder.startState (NewHallEncoder ⟨0⟩ ⟨1⟩)) ⟨false, false⟩ = true ∧
    (hallStep (HallEncoder.startState (NewHallEncoder ⟨0⟩ ⟨1⟩)) ⟨false, false⟩).position =
      wrap64 ((HallEncoder.startState (NewHallEncoder ⟨0⟩ ⟨1⟩)).position + 1) :=
  ⟨by decide,
   ((hall_transition_table (HallEncoder.startState (NewHallEncoder ⟨0⟩ ⟨1⟩))
      ⟨false, false⟩ (by decide)).2 (Or.inr (by decide))).2 rfl⟩

/-- Claim C2: from every reachable starting state of the consumer loop
(one satisfying `LevelInv`, which holds at start and is preserved), the
four-edge forward-rotation sequence moves the counter by exactly −4 and the
reverse sequence by exactly +4, the cached levels return to their starting
values, and `LevelInv` is re-established — so repeated cycles in the same
direction keep producing the same sign. -/
theorem hall_full_cycle (s : HallLoopState) (hinv : LevelInv s) :
    (hallRun s (forwardSeq s.aLevel s.bLevel)).position = wrap64 (s.position - 4) ∧
    (hallRun s (forwardSeq s.aLevel s.bLevel)).aLevel = s.aLevel ∧
    (hallRun s (forwardSeq s.aLevel s.bLevel)).bLevel = s.bLevel ∧
    LevelInv (hallRun s (forwardSeq s.aLevel s.bLevel)) ∧
    (hallRun s (backwardSeq s.aLevel s.bLevel)).position = wrap64 (s.position + 4) ∧
    (hallRun s (backwardSeq s.aLevel s.bLevel)).aLevel = s.aLevel ∧
    (hallRun s (backwardSeq s.aLevel s.bLevel)).bLevel = s.bLevel ∧
    LevelInv (hallRun s (backwardSeq s.aLevel s.bLevel)) := by
  obtain ⟨a, b, lw, ll, p⟩ := s
  obtain ⟨h1, h2⟩ := hinv
  cases a <;> cases b <;> cases lw <;> cases ll <;>
    simp_all [hallRun, forwardSeq, backwardSeq, hallStep, HallLoopState.inc,
      HallLoopState.dec, LevelInv, wrap64_sub4, wrap64_add4]

/-- Witness for C2: the state right after `Start` satisfies the invariant,
and one forward cycle from it moves the counter from 0 to `wrap64 (0 - 4)`. -/
theorem hall_full_cycle_witness :
    LevelInv (HallEncoder.startState (NewHallEncoder ⟨0⟩ ⟨1⟩)) ∧
    (hallRun (HallEncoder.startState (NewHallEncoder ⟨0⟩ ⟨1⟩))
      (forwardSeq true true)).position = wrap64 (0 - 4) :=
  ⟨by decide,
   (hall_full_cycle (HallEncoder.startState (NewHallEncoder ⟨0⟩ ⟨1⟩)) (by decide)).1⟩

end Encoder

namespace Encoder

/-- Claim C3: an event on the same channel and with the same level as the
previously accepted event is discarded and leaves the counter untouched;
in particular, delivering any channel+level pair twice in a row never
changes the counter on the second delivery. -/
theorem hall_debounce (s : HallLoopState) (ev : Event)
    (hA : ev.isA = s.lastWasA) (hL : ev.level = s.lastLevel) :
    accepted s ev = false ∧
    (hallStep s ev).position = s.position ∧
    (∀ t : HallLoopState, ∀ e : Event,
      (hallStep (hallStep t e) e).position = (hallStep t e).position) := by
  refine ⟨?_, ?_, ?_⟩
  · simp [accepted, hA, hL]
  · exact hallStep_discarded_position s ev (by simp [accepted, hA, hL])
  · intro t e
    obtain ⟨a, b, lw, ll, p⟩ := t
    obtain ⟨iA, lv⟩ := e
    cases iA <;> cases lv <;> cases a <;> cases b <;> cases lw <;> cases ll <;>
      simp [hallStep, HallLoopState.inc, HallLoopState.dec]

/-- Witness for C3: right after `Start`, an A-goes-true event matches the
debounce memory, is discarded, and the counter stays put. -/
theorem hall_debounce_witness :
    (Event.isA ⟨true, true⟩ = (HallEncoder.startState (NewHallEncoder ⟨0⟩ ⟨1⟩)).lastWasA) ∧
    (Event.level ⟨true, true⟩ = (HallEncoder.startState (NewHallEncoder ⟨0⟩ ⟨1⟩)).lastLevel) ∧
    accepted (HallEncoder.startState (NewHallEncoder ⟨0⟩ ⟨1⟩)) ⟨true, true⟩ = false ∧
    (hallStep (HallEncoder.startState (NewHallEncoder ⟨0⟩ ⟨1⟩)) ⟨true, true⟩).position =
      (HallEncoder.startState (NewHallEncoder ⟨0⟩ ⟨1⟩)).position :=
  ⟨rfl, rfl,
   (hall_debounce (HallEncoder.startState (NewHallEncoder ⟨0⟩ ⟨1⟩)) ⟨true, true⟩ rfl rfl).1,
   (hall_debounce (HallEncoder.startState (NewHallEncoder ⟨0⟩ ⟨1⟩)) ⟨true, true⟩ rfl rfl).2.1⟩

/-- Claim C4: immediately after `Start`, the consumer loop's cached state is
`aLevel = true, bLevel = true, lastWasA = true, lastLevel = true` (set
without reading the physical lines), so the first delivered event is
discarded by the debounce filter — its counter effect is zero — whenever it
is a channel-A event with level `true`. -/
theorem hall_start_state_first_event (e : HallEncoder) :
    e.startState.aLevel = true ∧ e.startState.bLevel = true ∧
    e.startState.lastWasA = true ∧ e.startState.lastLevel = true ∧
    (∀ ev : Event, ev.isA = true → ev.level = true →
      accepted e.startState ev = false ∧
      (hallStep e.startState ev).position = e.startState.position) := by
  refine ⟨rfl, rfl, rfl, rfl, ?_⟩
  intro ev hA hL
  refine ⟨by simp [accepted, hA, hL, HallEncoder.startState], ?_⟩
  exact hallStep_discarded_position _ ev
    (by simp [accepted, hA, hL, HallEncoder.startState])

/-- Witness for C4: concretely, the genuine A-rising edge delivered first
after `Start` is dropped and the counter stays at 0. -/
theorem hall_start_state_first_event_witness :
    accepted (HallEncoder.startState (NewHallEncoder ⟨0⟩ ⟨1⟩)) ⟨true, true⟩ = false ∧
    (hallStep (HallEncoder.startState (NewHallEncoder ⟨0⟩ ⟨1⟩)) ⟨true, true⟩).position =
      (HallEncoder.startState (NewHallEncoder ⟨0⟩ ⟨1⟩)).position :=
  (hall_start_state_first_event (NewHallEncoder ⟨0⟩ ⟨1⟩)).2.2.2.2 ⟨true, true⟩ rfl rfl

/-- Claim C5: on every pulse, the single-pulse consumer loop increments the
counter when the motor direction reads FORWARD, decrements it when
BACKWARD, and otherwise leaves the counter unchanged, emitting the warning
diagnostic exactly when the debug flag is set. -/
theorem single_direction_dispatch (rpmDebug : Bool) (s : SingleLoopState)
    (dir : DirectionRelative) :
    (dir = DirectionRelative.forward →
      singleStep rpmDebug s dir = { s with position := wrap64 (s.position + 1) }) ∧
    (dir = DirectionRelative.backward →
      singleStep rpmDebug s dir = { s with position := wrap64 (s.position - 1) }) ∧
    (dir ≠ DirectionRelative.forward → dir ≠ DirectionRelative.backward →
      (singleStep rpmDebug s dir).position = s.position ∧
      (rpmDebug = true → (singleStep rpmDebug s dir).warnings = s.warnings + 1) ∧
      (rpmDebug = false → (singleStep rpmDebug s dir).warnings = s.warnings)) := by
  cases dir <;> cases rpmDebug <;> simp [singleStep]

/-- Witness for C5: with debug on, a FORWARD pulse from position 0
increments the counter. -/
theorem single_direction_dispatch_witness :
    singleStep true ⟨0, 0⟩ DirectionRelative.forward =
      { position := wrap64 (0 + 1), warnings := 0 } :=
  (single_direction_dispatch true ⟨0, 0⟩ DirectionRelative.forward).1 rfl

end Encoder

namespace Encoder

/-- Claim C6: after `Zero(ctx, X)` on either decoder variant, `Position`
returns exactly X, and the counter stays at X as long as no edge or pulse
is accepted: every debounce-discarded edge (hall variant) and every pulse
seen while the direction is neither FORWARD nor BACKWARD (single variant)
leaves it at X. -/
theorem zero_then_position (ctx : Context) (e : HallEncoder) (se : SingleEncoder)
    (X : Int) (s : HallLoopState) (evs : List Event)
    (hdisc : allDiscarded { s with position := X } evs = true)
    (rpmDebug : Bool) (t : SingleLoopState) (dirs : List DirectionRelative)
    (hoff : ∀ d ∈ dirs, d ≠ DirectionRelative.forward ∧ d ≠ DirectionRelative.backward) :
    (((e.Zero ctx X).1.Position ctx).1 = X) ∧
    (((se.Zero ctx X).1.Position ctx).1 = X) ∧
    (hallRun { s with position := X } evs).position = X ∧
    (singleRun rpmDebug { t with position := X } dirs).position = X := by
  refine ⟨rfl, rfl, ?_, ?_⟩
  · exact hallRun_allDiscarded_position evs _ hdisc
  · exact singleRun_off_position dirs rpmDebug _ hoff

/-- Witness for C6: zero both decoders to 5, then deliver one discarded
hall edge and one pulse with the motor off; the counter stays 5. -/
theorem zero_then_position_witness :
    allDiscarded { HallEncoder.startState (NewHallEncoder ⟨0⟩ ⟨1⟩) with position := 5 }
      [⟨true, true⟩] = true ∧
    (∀ d ∈ [DirectionRelative.unspecified],
      d ≠ DirectionRelative.forward ∧ d ≠ DirectionRelative.backward) ∧
    ((((NewHallEncoder ⟨0⟩ ⟨1⟩).Zero ⟨0⟩ 5).1.Position ⟨0⟩).1 = 5) ∧
    ((((NewSingleEncoder ⟨2⟩).Zero ⟨0⟩ 5).1.Position ⟨0⟩).1 = 5) ∧
    (hallRun { HallEncoder.startState (NewHallEncoder ⟨0⟩ ⟨1⟩) with position := 5 }
      [⟨true, true⟩]).position = 5 ∧
    (singleRun true { (⟨0, 0⟩ : SingleLoopState) with position := 5 }
      [DirectionRelative.unspecified]).position = 5 := by
  have h := zero_then_position ⟨0⟩ (NewHallEncoder ⟨0⟩ ⟨1⟩) (NewSingleEncoder ⟨2⟩) 5
    (HallEncoder.startState (NewHallEncoder ⟨0⟩ ⟨1⟩)) [⟨true, true⟩] (by decide)
    true ⟨0, 0⟩ [DirectionRelative.unspecified] (by decide)
  exact ⟨by decide, by decide, h.1, h.2.1, h.2.2.1, h.2.2.2⟩

end Encoder

namespace Encoder

/-- Claim C7: `Position` and `Zero` on both decoder variants always
succeed: the error component is always `none` (Go `nil`). -/
theorem position_zero_never_fail (ctx : Context) (e : HallEncoder)
    (se : SingleEncoder) (x y : Int) :
    (e.Position ctx).2 = none ∧ (e.Zero ctx x).2 = none ∧
    (se.Position ctx).2 = none ∧ (se.Zero ctx y).2 = none :=
  ⟨rfl, rfl, rfl, rfl⟩

/-- Claim C8: on every accepted edge the hall counter moves by exactly +1
or −1 in int64 arithmetic (never 0, never more), and a discarded edge —
the only other loop outcome that touches the state — leaves the counter
unchanged. -/
theorem hall_step_delta (s : HallLoopState) (ev : Event)
    (hlo : -(2 ^ 63) ≤ s.position) (hhi : s.position < 2 ^ 63) :
    (accepted s ev = true →
      (wrap64 ((hallStep s ev).position - s.position) = 1 ∨
       wrap64 ((hallStep s ev).position - s.position) = -1) ∧
      (hallStep s ev).position ≠ s.position) ∧
    (accepted s ev = false → (hallStep s ev).position = s.position) := by
  obtain ⟨a, b, lw, ll, p⟩ := s
  obtain ⟨iA, lv⟩ := ev
  simp only [accepted] at hlo hhi ⊢
  cases iA <;> cases lv <;> cases a <;> cases b <;> cases lw <;> cases ll <;>
    simp_all [hallStep, HallLoopState.inc, HallLoopState.dec] <;>
    unfold wrap64 <;> omega

/-- Witness for C8: from the post-`Start` state at position 0, the accepted
B-goes-false edge moves the counter by exactly −1. -/
theorem hall_step_delta_witness :
    -(2 ^ 63) ≤ (HallEncoder.startState (NewHallEncoder ⟨0⟩ ⟨1⟩)).position ∧
    (HallEncoder.startState (NewHallEncoder ⟨0⟩ ⟨1⟩)).position < 2 ^ 63 ∧
    accepted (HallEncoder.startState (NewHallEncoder ⟨0⟩ ⟨1⟩)) ⟨false, false⟩ = true ∧
    (wrap64 ((hallStep (HallEncoder.startState (NewHallEncoder ⟨0⟩ ⟨1⟩))
        ⟨false, false⟩).position -
        (HallEncoder.startState (NewHallEncoder ⟨0⟩ ⟨1⟩)).position) = 1 ∨
     wrap64 ((hallStep (HallEncoder.startState (NewHallEncoder ⟨0⟩ ⟨1⟩))
        ⟨false, false⟩).position -
        (HallEncoder.startState (NewHallEncoder ⟨0⟩ ⟨1⟩)).position) = -1) := by
  have h := hall_step_delta (HallEncoder.startState (NewHallEncoder ⟨0⟩ ⟨1⟩))
    ⟨false, false⟩ (by decide) (by decide)
  exact ⟨by decide, by decide, by decide, (h.1 (by decide)).1⟩

/-- Claim C9: a freshly constructed decoder of either variant has position
0: `Position` on it returns 0 before any `Start`, `Zero` or edge. -/
theorem new_encoder_position_is_zero (ctx : Context) (a b i : DigitalInterrupt) :
    ((NewHallEncoder a b).Position ctx).1 = 0 ∧
    ((NewSingleEncoder i).Position ctx).1 = 0 :=
  ⟨rfl, rfl⟩

end Encoder

namespace Encoder

/-- Counterexample for C10 as stated: the cancellation signal has fired by
the time the loop reaches the blocking receive (`doneAtSelect = true`), yet
because Go's `select` chooses pseudo-randomly among simultaneously ready
cases, the racing B-edge can win (`selectPicksDone = false`): the loop
processes that event — it even moves the counter — instead of exiting. -/
theorem loop_cancellation_counterexample :
    (false || true) = true ∧
    loopIter (fun u => hallStep u ⟨false, false⟩) false true false
        (HallEncoder.startState (NewHallEncoder ⟨0⟩ ⟨1⟩)) =
      IterResult.continued
        (hallStep (HallEncoder.startState (NewHallEncoder ⟨0⟩ ⟨1⟩)) ⟨false, false⟩) ∧
    loopIter (fun u => hallStep u ⟨false, false⟩) false true false
        (HallEncoder.startState (NewHallEncoder ⟨0⟩ ⟨1⟩)) ≠
      (IterResult.exited : IterResult HallLoopState) ∧
    (hallStep (HallEncoder.startState (NewHallEncoder ⟨0⟩ ⟨1⟩)) ⟨false, false⟩).position ≠
      (HallEncoder.startState (NewHallEncoder ⟨0⟩ ⟨1⟩)).position := by
  decide

/-- Claim C10 (amended): if the cancellation signal has fired by the
top-of-iteration check, either consumer loop exits at once without touching
an event; if it fires only at the blocking receive, the loop exits whenever
the select resolves in favor of cancellation — but a simultaneously ready
event may instead be chosen and processed once, after which the following
top-of-iteration check exits. -/
theorem loop_cancellation (ev : Event) (s : HallLoopState)
    (rpmDebug : Bool) (dir : DirectionRelative) (t : SingleLoopState) :
    (∀ dSel pick : Bool,
      loopIter (fun u => hallStep u ev) true dSel pick s =
        (IterResult.exited : IterResult HallLoopState)) ∧
    loopIter (fun u => hallStep u ev) false true true s =
      (IterResult.exited : IterResult HallLoopState) ∧
    (∀ dSel pick : Bool,
      loopIter (fun u => singleStep rpmDebug u dir) true dSel pick t =
        (IterResult.exited : IterResult SingleLoopState)) ∧
    loopIter (fun u => singleStep rpmDebug u dir) false true true t =
      (IterResult.exited : IterResult SingleLoopState) ∧
    loopIter (fun u => hallStep u ev) false true false s =
      IterResult.continued (hallStep s ev) := by
  refine ⟨fun dSel pick => rfl, rfl, fun dSel pick => rfl, rfl, rfl⟩

end Encoder
